import Mathlib

/-!
Shallow embedding of the `painel-insights-back` repository
(`src/app.py` and `src/services/sheets_service.py`).

Spreadsheet rows are loosely-typed dicts; we model a cell as a string, a
parsed date (encoded as `year*10000 + month*100 + day`, so that `Nat`
order coincides with chronological order), or a null (Python `None`,
pandas `NaN`/`NaT`).  A pandas `DataFrame` is modelled as a column list
plus a list of rows, each row an association list that is total over the
columns (pandas materialises `NaN` for missing keys when a frame is
built from a list of dicts).
-/

/-- Character-level model of Python `str.lower()` restricted to ASCII and the
Latin-1 letter block (`À`..`Þ` except `×` map to `à`..`þ`); every character the
repository's data and tests use falls in this range. -/
def pyLowerChar (c : Char) : Char :=
  if 65 ≤ c.toNat ∧ c.toNat ≤ 90 then Char.ofNat (c.toNat + 32)
  else if 192 ≤ c.toNat ∧ c.toNat ≤ 222 ∧ c.toNat ≠ 215 then Char.ofNat (c.toNat + 32)
  else c

/-- Model of Python `str.lower()`. -/
def pyLower (s : String) : String := ⟨s.toList.map pyLowerChar⟩

/-- Substring test on character lists: model of Python `needle in hay`. -/
def containsSub (hay needle : List Char) : Bool :=
  match hay with
  | [] => needle.isEmpty
  | _ :: t => needle.isPrefixOf hay || containsSub t needle

/-- Model of Python `needle in hay` on strings (as used by
`pandas.Series.str.contains` with a plain, already-lowercased term). -/
def strContains (hay needle : String) : Bool :=
  containsSub hay.toList needle.toList

/-- Whitespace predicate for the model of `str.strip()`. -/
def isPySpace (c : Char) : Bool :=
  c = ' ' ∨ c = '\t' ∨ c = '\n' ∨ c = '\r'

/-- Model of Python `str.strip()`. -/
def pyStrip (s : String) : String :=
  ⟨((s.toList.dropWhile isPySpace).reverse.dropWhile isPySpace).reverse⟩

/-- Lexicographic (code-point) string order, the order Python `sorted` uses
on strings; `Bool`-valued so it is executable. -/
def lexLeChars : List Char → List Char → Bool
  | [], _ => true
  | _ :: _, [] => false
  | a :: as, b :: bs =>
    if a.toNat < b.toNat then true
    else if b.toNat < a.toNat then false
    else lexLeChars as bs

/-- String order used to model Python `sorted` on strings. -/
def pyStrLe (a b : String) : Bool := lexLeChars a.toList b.toList

/-- Value stored in one cell of a data frame. -/
inductive Cell where
  | str (s : String)
  | date (d : Nat)
  | null
deriving DecidableEq, Repr

/-- Row of a data frame: an association list from column name to cell. -/
abbrev Row := List (String × Cell)

/-- Model of a pandas `DataFrame`: the column list and the rows. -/
structure DataFrame where
  cols : List String
  rows : List Row
deriving DecidableEq, Repr

/-- First cell stored under column `c`, or `Cell.null` when the key is
absent (pandas materialises `NaN` for missing keys). -/
def getCell (r : Row) (c : String) : Cell :=
  match r.find? (fun p => p.1 = c) with
  | some p => p.2
  | none => Cell.null

/-- Keys of a row, in order. -/
def rowKeys (r : Row) : List String := r.map Prod.fst

/-- Union of the keys of all rows in first-appearance order: the column set
`pd.DataFrame(list_of_dicts)` produces. -/
def unionKeys (data : List Row) : List String :=
  data.foldl (fun acc r => acc ++ (rowKeys r).filter (fun k => ¬ acc.contains k)) []

/-- Rebuild a row so that it is total over `cols`, with `Cell.null` for
absent keys, as pandas does when building a frame from dicts. -/
def alignRow (cols : List String) (r : Row) : Row :=
  cols.map (fun c => (c, getCell r c))

/-- Model of `pd.DataFrame(data)` for a non-empty list of dict rows. -/
def mkDataFrame (data : List Row) : DataFrame :=
  { cols := unionKeys data, rows := data.map (alignRow (unionKeys data)) }

/-- Constant `REQUIRED_COLS` from `src/app.py`. -/
def REQUIRED_COLS : List String :=
  ["Marca", "Plataforma", "Insight", "Data do report/status", "Mês", "Tipo de insight"]

/-- Constant `DATE_COL` from `src/app.py`. -/
def DATE_COL : String := "Data do report/status"

/-- Constant `DATE_COLS` from `src/app.py`. -/
def DATE_COLS : List String := ["Data do report/status", "LTV"]

/-- Constant `SEARCHABLE_COLS` from `src/app.py`. -/
def SEARCHABLE_COLS : List String :=
  ["Marca", "Plataforma", "Insight", "Tipo de insight", "Mês", "LTV"]

/-- Constant `CANON_TO_COL` from `src/app.py`. -/
def CANON_TO_COL : List (String × String) :=
  [("brand", "Marca"), ("platform", "Plataforma"),
   ("insight_type", "Tipo de insight"), ("month", "Mês")]

/-- Loop body of `_ensure_required_cols` (`src/app.py` lines 55-57): one
absent column is appended with all-null values. -/
def ensureStep (d : DataFrame) (col : String) : DataFrame :=
  if d.cols.contains col then d
  else { cols := d.cols ++ [col], rows := d.rows.map (fun r => r ++ [(col, Cell.null)]) }

/-- Model of `_ensure_required_cols` (`src/app.py` lines 54-58): every
required column absent from the frame is appended with all-null values. -/
def ensureRequiredCols (df : DataFrame) : DataFrame :=
  REQUIRED_COLS.foldl ensureStep df

/-- Map the cells of one column, leaving the other columns unchanged
(model of assigning a transformed pandas column). -/
def mapCol (df : DataFrame) (col : String) (f : Cell → Cell) : DataFrame :=
  { df with rows := df.rows.map (fun r => r.map (fun p => if p.1 = col then (p.1, f p.2) else p)) }

/-- Leap-year test (Gregorian). -/
def isLeap (y : Nat) : Bool := (y % 4 = 0 ∧ y % 100 ≠ 0) ∨ y % 400 = 0

/-- Days in a month, for calendar validation as `pd.to_datetime` performs it. -/
def daysInMonth (y m : Nat) : Nat :=
  if m = 2 then (if isLeap y then 29 else 28)
  else if m = 4 ∨ m = 6 ∨ m = 9 ∨ m = 11 then 30
  else 31

/-- Digit-string to number; `none` when empty or not all digits. -/
def digitsToNat (cs : List Char) : Option Nat :=
  if cs.isEmpty then none
  else if cs.all Char.isDigit then some (cs.foldl (fun n c => n * 10 + (c.toNat - 48)) 0)
  else none

/-- Split a character list at a separator character. -/
def splitOnChar (sep : Char) (cs : List Char) : List (List Char) :=
  match cs with
  | [] => [[]]
  | c :: t =>
    let rest := splitOnChar sep t
    if c = sep then [] :: rest
    else match rest with
      | [] => [[c]]
      | h :: t' => (c :: h) :: t'

/-- Encode a calendar date as `y*10000 + m*100 + d`; `Nat` order on the
encoding coincides with chronological order. -/
def encodeDate (y m d : Nat) : Nat := y * 10000 + m * 100 + d

/-- Model of `pd.to_datetime(s, format='%d/%m/%Y', errors='coerce')` on one
string: strict `day/month/year` with calendar validation; `none` is `NaT`. -/
def parseSheetDate (s : String) : Option Nat :=
  match splitOnChar '/' s.toList with
  | [ds, ms, ys] =>
    if ds.length ≤ 2 ∧ ms.length ≤ 2 ∧ ys.length = 4 then
      match digitsToNat ds, digitsToNat ms, digitsToNat ys with
      | some d, some m, some y =>
        if 1 ≤ m ∧ m ≤ 12 ∧ 1 ≤ d ∧ d ≤ daysInMonth y m then some (encodeDate y m d)
        else none
      | _, _, _ => none
    else none
  | _ => none

/-- Coerce one cell through the sheet-date parser: strings parse or become
null, everything else (already-null cells) becomes/stays null. -/
def parseDateCell (c : Cell) : Cell :=
  match c with
  | Cell.str s =>
    match parseSheetDate s with
    | some d => Cell.date d
    | none => Cell.null
  | Cell.date d => Cell.date d
  | Cell.null => Cell.null

/-- Loop body of `_parse_sheet_dates` (`src/app.py` lines 61-63). -/
def parseStep (d : DataFrame) (col : String) : DataFrame :=
  if d.cols.contains col then mapCol d col parseDateCell else d

/-- Model of `_parse_sheet_dates` (`src/app.py` lines 60-64): each date
column present in the frame is parsed with the strict input format. -/
def parseSheetDates (df : DataFrame) : DataFrame :=
  DATE_COLS.foldl parseStep df

/-- Model of the pydantic `FilterPayload` (`src/app.py` lines 31-35). -/
structure FilterPayload where
  brand : Option (List String)
  platform : Option (List String)
  insight_type : Option (List String)
  month : Option (List String)
deriving DecidableEq, Repr

/-- Model of `getattr(f, canon_key, None)` over the four canonical keys. -/
def payloadGet (f : FilterPayload) (k : String) : Option (List String) :=
  if k = "brand" then f.brand
  else if k = "platform" then f.platform
  else if k = "insight_type" then f.insight_type
  else if k = "month" then f.month
  else none

/-- Model of `Series.isin(values)` on one cell against a list of strings:
only a string cell equal to a member matches; dates and nulls never do. -/
def cellIsin (c : Cell) (values : List String) : Bool :=
  match c with
  | Cell.str s => values.contains s
  | _ => false

/-- Loop body of `_apply_canonical_filters` (`src/app.py` lines 71-74): when
the canonical key carries a truthy value list and the column exists, keep the
rows whose cell is in the list. -/
def canonStep (fp : FilterPayload) (out : DataFrame) (kv : String × String) : DataFrame :=
  match payloadGet fp kv.1 with
  | some values =>
    if ¬ values.isEmpty ∧ out.cols.contains kv.2 then
      { out with rows := out.rows.filter (fun r => cellIsin (getCell r kv.2) values) }
    else out
  | none => out

/-- Model of `_apply_canonical_filters` (`src/app.py` lines 67-75): the
canonical filters apply in sequence over `CANON_TO_COL`. -/
def applyCanonicalFilters (df : DataFrame) (f : Option FilterPayload) : DataFrame :=
  match f with
  | none => df
  | some fp => CANON_TO_COL.foldl (canonStep fp) df

/-- String form of a cell under Python `str()`, as `astype(str)` applies it:
a date cell renders as a midnight timestamp, a missing value as `nan`
(the model conflates `nan`, `None` and `NaT` renderings; no theorem below
depends on the string form of a null cell). -/
def cellStr (c : Cell) : String :=
  match c with
  | Cell.str s => s
  | Cell.date d =>
    (toString (d / 10000)) ++ "-" ++
    (if d / 100 % 100 < 10 then "0" ++ toString (d / 100 % 100) else toString (d / 100 % 100)) ++ "-" ++
    (if d % 100 < 10 then "0" ++ toString (d % 100) else toString (d % 100)) ++ " 00:00:00"
  | Cell.null => "nan"

/-- Model of `_apply_search` (`src/app.py` lines 77-85): keep rows where the
lower-cased string form of some searchable column contains the lower-cased
term as a substring. -/
def applySearch (df : DataFrame) (term : Option String) : DataFrame :=
  match term with
  | none => df
  | some t =>
    if t = "" then df
    else
      let st := pyLower t
      let cols := SEARCHABLE_COLS.filter (fun c => df.cols.contains c)
      if cols.isEmpty then df
      else
        { df with
          rows := df.rows.filter
            (fun r => cols.any (fun c => strContains (pyLower (cellStr (getCell r c))) st)) }

/-- Model of `pd.to_datetime(s, errors='coerce')` on the `YYYY-MM-DD` query
bounds the API documents (the pandas parser accepts more formats; the model
covers the documented one, with calendar validation). -/
def parseBoundDate (s : String) : Option Nat :=
  match splitOnChar '-' s.toList with
  | [ys, ms, ds] =>
    if ys.length = 4 ∧ ms.length ≤ 2 ∧ ds.length ≤ 2 then
      match digitsToNat ys, digitsToNat ms, digitsToNat ds with
      | some y, some m, some d =>
        if 1 ≤ m ∧ m ≤ 12 ∧ 1 ≤ d ∧ d ≤ daysInMonth y m then some (encodeDate y m d)
        else none
      | _, _, _ => none
    else none
  | _ => none

/-- Comparison `cell >= bound` on the parsed date column: `NaT >= x` is false. -/
def cellGeDate (c : Cell) (b : Nat) : Bool :=
  match c with
  | Cell.date d => b ≤ d
  | _ => false

/-- Comparison `cell <= bound` on the parsed date column: `NaT <= x` is false. -/
def cellLeDate (c : Cell) (b : Nat) : Bool :=
  match c with
  | Cell.date d => d ≤ b
  | _ => false

/-- Start-bound statement of `_apply_date_range` (`src/app.py` lines 91-93):
a supplied, parseable start date keeps the rows whose parsed report date is
`>=` the bound; a falsy or unparseable bound leaves the frame unchanged. -/
def applyStartBound (df : DataFrame) (startDate : Option String) : DataFrame :=
  match startDate with
  | some s =>
    if s = "" then df
    else
      match parseBoundDate s with
      | some b => { df with rows := df.rows.filter (fun r => cellGeDate (getCell r DATE_COL) b) }
      | none => df
  | none => df

/-- End-bound statement of `_apply_date_range` (`src/app.py` lines 94-96):
a supplied, parseable end date keeps the rows whose parsed report date is
`<=` the bound. -/
def applyEndBound (df : DataFrame) (endDate : Option String) : DataFrame :=
  match endDate with
  | some s =>
    if s = "" then df
    else
      match parseBoundDate s with
      | some b => { df with rows := df.rows.filter (fun r => cellLeDate (getCell r DATE_COL) b) }
      | none => df
  | none => df

/-- Model of `_apply_date_range` (`src/app.py` lines 87-97): each supplied
bound that parses filters the rows by an inclusive comparison on the parsed
report date; an unparseable bound is skipped. -/
def applyDateRange (df : DataFrame) (startDate endDate : Option String) : DataFrame :=
  if ¬ df.cols.contains DATE_COL then df
  else applyEndBound (applyStartBound df startDate) endDate

/-- Sort key relation of `sort_values(by=[DATE_COL], ascending=False,
na_position='last')`: dates in descending order, null keys after every date. -/
def dateSortLE (r1 r2 : Row) : Bool :=
  match getCell r1 DATE_COL, getCell r2 DATE_COL with
  | Cell.date a, Cell.date b => b ≤ a
  | Cell.date _, _ => true
  | _, Cell.date _ => false
  | _, _ => true

/-- Sorting step of `_finalize_df` (`src/app.py` lines 101-102).  The pandas
quicksort leaves the order of tied keys unspecified; the model determinises
it with a stable sort, which realises one of the permitted orders. -/
def sortRowsByDate (df : DataFrame) : DataFrame :=
  if df.cols.contains DATE_COL then
    { df with rows := List.insertionSort (fun r1 r2 => dateSortLE r1 r2 = true) df.rows }
  else df

/-- Output date format `%d-%m-%Y` from `src/app.py` line 14. -/
def fmtOutDate (d : Nat) : String :=
  (if d % 100 < 10 then "0" ++ toString (d % 100) else toString (d % 100)) ++ "-" ++
  (if d / 100 % 100 < 10 then "0" ++ toString (d / 100 % 100) else toString (d / 100 % 100)) ++ "-" ++
  toString (d / 10000)

/-- Model of `pd.api.types.is_datetime64_any_dtype` on a column of the model
frame: every cell is a parsed date or a null.  In the pipeline this holds for
each date column because `_parse_sheet_dates` has already run on it. -/
def colIsDatetime (df : DataFrame) (col : String) : Bool :=
  df.rows.all (fun r =>
    match getCell r col with
    | Cell.date _ => true
    | Cell.null => true
    | _ => false)

/-- Reformatting of one datetime cell by `dt.strftime(OUTPUT_DATE_FMT)`
followed by the `where(pd.notna(df), None)` null normalisation: a date
becomes its formatted string, `NaT` becomes null. -/
def fmtDateCell (c : Cell) : Cell :=
  match c with
  | Cell.date d => Cell.str (fmtOutDate d)
  | Cell.null => Cell.null
  | Cell.str s => Cell.str s

/-- Loop body of the date-reformatting step of `_finalize_df`
(`src/app.py` lines 105-107). -/
def formatStep (d : DataFrame) (col : String) : DataFrame :=
  if d.cols.contains col ∧ colIsDatetime d col then mapCol d col fmtDateCell else d

/-- Date-reformatting step of `_finalize_df` (`src/app.py` lines 105-107). -/
def formatDateCols (df : DataFrame) : DataFrame :=
  DATE_COLS.foldl formatStep df

/-- Model of `_finalize_df` (`src/app.py` lines 99-110): sort by the report
date descending with nulls last, then reformat the date columns.  The final
`where(pd.notna(df), None)` maps `NaN`/`NaT` to `None`; in the model both are
already `Cell.null`, so that step is the identity. -/
def finalizeDf (df : DataFrame) : DataFrame :=
  formatDateCols (sortRowsByDate df)

/-- Model of the pydantic `DataRequest` (`src/app.py` lines 37-41). -/
structure DataRequest where
  filters : Option FilterPayload
  search : Option String
  start_date : Option String
  end_date : Option String
deriving DecidableEq, Repr

/-- Model of `_filter_pipeline` (`src/app.py` lines 112-121). -/
def filterPipeline (data : List Row) (payload : DataRequest) : DataFrame :=
  if data.isEmpty then { cols := REQUIRED_COLS, rows := [] }
  else
    finalizeDf
      (applyDateRange
        (applySearch
          (applyCanonicalFilters (parseSheetDates (ensureRequiredCols (mkDataFrame data)))
            payload.filters)
          payload.search)
        payload.start_date payload.end_date)

/-- Replace the value under a key in an association list, or append the pair;
model of Python dict assignment `d[k] = v` (insertion order preserved, later
assignment overwrites in place). -/
def assocSet {α : Type} (l : List (String × α)) (k : String) (v : α) : List (String × α) :=
  match l with
  | [] => [(k, v)]
  | p :: t => if p.1 = k then (k, v) :: t else p :: assocSet t k v

/-- Lookup in an association list; model of Python `d.get(k)`. -/
def assocGet {α : Type} (l : List (String × α)) (k : String) : Option α :=
  match l.find? (fun p => p.1 = k) with
  | some p => some p.2
  | none => none

/-- Constant `WORKSHEETS_TO_FETCH` from `src/services/sheets_service.py`. -/
def WORKSHEETS_TO_FETCH : List String := ["BANCO_INSIGHTS", "MARCAS", "PLATAFORMAS"]

/-- Key normalisation inside `fetch_all_data`
(`src/services/sheets_service.py` lines 47-54): strip, lower-case, then map
any name containing `insight`/`marca`/`plataform` to the stable key. -/
def normalizeWorksheetKey (name : String) : String :=
  let key := pyLower (pyStrip name)
  if strContains key "insight" then "insights"
  else if strContains key "marca" then "marcas"
  else if strContains key "plataform" then "plataformas"
  else key

/-- Environment of the external tabular store: whether authentication yields
a client, whether the spreadsheet opens, and which worksheets exist with
which records. -/
structure SheetsEnv where
  clientOk : Bool
  spreadsheetFound : Bool
  worksheets : List (String × List Row)
deriving DecidableEq, Repr

/-- Model of one un-cached execution of `fetch_all_data`
(`src/services/sheets_service.py` lines 31-71): a failed authentication or a
missing spreadsheet yields the empty dict; otherwise each worksheet in
`WORKSHEETS_TO_FETCH` is fetched, stored under its normalised key when found
and under its ORIGINAL name with an empty list when not found (the
`WorksheetNotFound` branch at lines 57-59 writes `all_data[worksheet_name]`,
not the normalised key). -/
def fetchAllDataRaw (env : SheetsEnv) : List (String × List Row) :=
  if ¬ env.clientOk then []
  else if ¬ env.spreadsheetFound then []
  else
    WORKSHEETS_TO_FETCH.foldl
      (fun acc name =>
        match assocGet env.worksheets name with
        | some data => assocSet acc (normalizeWorksheetKey name) data
        | none => assocSet acc name [])
      []

/-- State of the `functools.lru_cache(maxsize=1)` slot on the nullary
`fetch_all_data`, plus a count of raw fetch executions (observational, to
state whether a call touched the upstream store). -/
structure CacheState where
  cached : Option (List (String × List Row))
  attempts : Nat
deriving DecidableEq, Repr

/-- Cache state at process start. -/
def initialCache : CacheState := { cached := none, attempts := 0 }

/-- Model of a call to the cached `fetch_all_data`: `lru_cache` returns the
stored value when one exists and otherwise stores whatever the body returns —
successful or empty-failure alike. -/
def fetchAllData (env : SheetsEnv) (st : CacheState) :
    List (String × List Row) × CacheState :=
  match st.cached with
  | some v => (v, st)
  | none =>
    let v := fetchAllDataRaw env
    (v, { cached := some v, attempts := st.attempts + 1 })

/-- Model of `all_data.get(k1) or all_data.get(k2) or []` (`src/app.py`
lines 142, 145-146, 172-173, 205, 208-209): first truthy (non-empty) list
wins, otherwise the empty list. -/
def orGetRows (allData : List (String × List Row)) (k1 k2 : String) : List Row :=
  match assocGet allData k1 with
  | some (r :: rs) => r :: rs
  | _ =>
    match assocGet allData k2 with
    | some (r :: rs) => r :: rs
    | _ => []

/-- Truthy string content of a cell, used by
`{r.get(col) for r in rows if r.get(col)}`: the lookup tables hold string
values, and a falsy (empty or missing) value is skipped. -/
def truthyStrCell (c : Cell) : Option String :=
  match c with
  | Cell.str s => if s = "" then none else some s
  | _ => none

/-- Model of `sorted({r.get(col) for r in rows if r.get(col)})`. -/
def uniqueSortedValues (rows : List Row) (col : String) : List String :=
  List.insertionSort (fun a b => pyStrLe a b = true)
    ((rows.filterMap (fun r => truthyStrCell (getCell r col))).eraseDups)

/-- Body of the `/api/getMetadata` response. -/
structure MetadataResponse where
  brands : List String
  platforms : List String
deriving DecidableEq, Repr

/-- Result of the metadata endpoint: a success body or an HTTP error. -/
inductive MetaResult where
  | ok (m : MetadataResponse)
  | error (code : Nat) (msg : String)
deriving DecidableEq, Repr

/-- Model of `get_metadata` (`src/app.py` lines 168-178): fetch (through the
cache), project the two lookup tables, deduplicate and sort.  No step of the
body raises in the model, so the `except` branch is unreachable. -/
def getMetadataHandler (env : SheetsEnv) (st : CacheState) : MetaResult × CacheState :=
  let p := fetchAllData env st
  (MetaResult.ok
    { brands := uniqueSortedValues (orGetRows p.1 "marcas" "MARCAS") "Marca",
      platforms := uniqueSortedValues (orGetRows p.1 "plataformas" "PLATAFORMAS") "Plataforma" },
   p.2)

/-- JSON value, the result type of the model of `json.loads`. -/
inductive JVal where
  | null
  | bool (b : Bool)
  | num (n : Int)
  | str (s : String)
  | arr (xs : List JVal)
  | obj (fields : List (String × JVal))

/-- Python truthiness of a JSON value (`if parsed[key]`). -/
def jvTruthy : JVal → Bool
  | JVal.null => false
  | JVal.bool b => b
  | JVal.num n => n ≠ 0
  | JVal.str s => s ≠ ""
  | JVal.arr xs => ¬ xs.isEmpty
  | JVal.obj fs => ¬ fs.isEmpty

/-- JSON whitespace skipping. -/
def skipWs (cs : List Char) : List Char :=
  cs.dropWhile (fun c => c = ' ' ∨ c = '\t' ∨ c = '\n' ∨ c = '\r')

/-- String body parser, after the opening quote: supports the common escapes
(`\"`, `\\`, `\/`, `\n`, `\t`, `\r`); `\b`, `\f` and `\uXXXX` are outside the
model, which therefore rejects a few strings `json.loads` accepts. -/
def parseJStrChars : Nat → List Char → List Char → Option (String × List Char)
  | 0, _, _ => none
  | _, [], _ => none
  | Nat.succ f, c :: t, acc =>
    if c = '"' then some (⟨acc.reverse⟩, t)
    else if c = '\\' then
      match t with
      | '"' :: t' => parseJStrChars f t' ('"' :: acc)
      | '\\' :: t' => parseJStrChars f t' ('\\' :: acc)
      | '/' :: t' => parseJStrChars f t' ('/' :: acc)
      | 'n' :: t' => parseJStrChars f t' ('\n' :: acc)
      | 't' :: t' => parseJStrChars f t' ('\t' :: acc)
      | 'r' :: t' => parseJStrChars f t' ('\r' :: acc)
      | _ => none
    else parseJStrChars f t (c :: acc)

/-- Integer literal parser (JSON floats are outside the model, which
therefore rejects some numbers `json.loads` accepts). -/
def parseJNum (cs : List Char) : Option (JVal × List Char) :=
  let signed := cs.head? = some '-'
  let body := if signed then cs.tail else cs
  let digits := body.takeWhile Char.isDigit
  let rest := body.dropWhile Char.isDigit
  if digits.isEmpty then none
  else if rest.head? = some '.' ∨ rest.head? = some 'e' ∨ rest.head? = some 'E' then none
  else
    match digitsToNat digits with
    | some n => some (JVal.num (if signed then -(n : Int) else (n : Int)), rest)
    | none => none

mutual

/-- Recursive-descent JSON value parser (fuel-indexed), model of the
grammar `json.loads` accepts on the payloads this API receives. -/
def parseJVal : Nat → List Char → Option (JVal × List Char)
  | 0, _ => none
  | Nat.succ f, cs =>
    match skipWs cs with
    | [] => none
    | c :: t =>
      if c = '"' then
        match parseJStrChars (t.length + 1) t [] with
        | some (s, rest) => some (JVal.str s, rest)
        | none => none
      else if c = '{' then
        match skipWs t with
        | '}' :: t' => some (JVal.obj [], t')
        | _ => parseJObjItems f t []
      else if c = '[' then
        match skipWs t with
        | ']' :: t' => some (JVal.arr [], t')
        | _ => parseJArrItems f t []
      else if c = 't' then
        if ['r', 'u', 'e'].isPrefixOf t then some (JVal.bool true, t.drop 3) else none
      else if c = 'f' then
        if ['a', 'l', 's', 'e'].isPrefixOf t then some (JVal.bool false, t.drop 4) else none
      else if c = 'n' then
        if ['u', 'l', 'l'].isPrefixOf t then some (JVal.null, t.drop 3) else none
      else parseJNum (c :: t)

/-- Array items parser, invoked after `[` when the array is non-empty. -/
def parseJArrItems : Nat → List Char → List JVal → Option (JVal × List Char)
  | 0, _, _ => none
  | Nat.succ f, cs, acc =>
    match parseJVal f cs with
    | some (v, rest) =>
      match skipWs rest with
      | ',' :: t => parseJArrItems f t (v :: acc)
      | ']' :: t => some (JVal.arr (v :: acc).reverse, t)
      | _ => none
    | none => none

/-- Object items parser, invoked after `{` when the object is non-empty;
duplicate keys overwrite in place as in a Python dict. -/
def parseJObjItems : Nat → List Char → List (String × JVal) → Option (JVal × List Char)
  | 0, _, _ => none
  | Nat.succ f, cs, acc =>
    match skipWs cs with
    | '"' :: t =>
      match parseJStrChars (t.length + 1) t [] with
      | some (k, rest) =>
        match skipWs rest with
        | ':' :: t' =>
          match parseJVal f t' with
          | some (v, rest') =>
            match skipWs rest' with
            | ',' :: t'' => parseJObjItems f t'' (assocSet acc k v)
            | '}' :: t'' => some (JVal.obj (assocSet acc k v), t'')
            | _ => none
          | none => none
        | _ => none
      | none => none
    | _ => none

end

/-- Model of `json.loads`: parse one value and require only whitespace after
it.  The model is conservative where noted above (floats, rare escapes), and
faithful on the object/array/string payloads the filters parameter carries. -/
def jsonLoads (s : String) : Option JVal :=
  match parseJVal (s.length + 1) s.toList with
  | some (v, rest) => if (skipWs rest).isEmpty then some v else none
  | none => none

/-- Lookup of a key in a parsed JSON object (`key in parsed` plus
`parsed[key]`). -/
def jLookup (parsed : List (String × JVal)) (k : String) : Option JVal :=
  match parsed.find? (fun p => p.1 = k) with
  | some p => some p.2
  | none => none

/-- Legacy branch of `pick` (`src/app.py` lines 192-193): a truthy legacy
value is returned as-is when it is a list and wrapped in a one-element list
otherwise. -/
def pickLegacy (parsed : List (String × JVal)) (legacyCol : String) : Option JVal :=
  match jLookup parsed legacyCol with
  | some v =>
    if jvTruthy v then
      match v with
      | JVal.arr xs => some (JVal.arr xs)
      | other => some (JVal.arr [other])
    else none
  | none => none

/-- Model of `pick` (`src/app.py` lines 190-194): a truthy canonical value
wins; otherwise a truthy legacy value is used (list-wrapped when scalar);
otherwise the field is absent. -/
def pick (parsed : List (String × JVal)) (keyCanon legacyCol : String) : Option JVal :=
  match jLookup parsed keyCanon with
  | some v => if jvTruthy v then some v else pickLegacy parsed legacyCol
  | none => pickLegacy parsed legacyCol

/-- Pydantic validation of one `Optional[List[str]]` field: a JSON list of
strings passes, anything else is a validation error (`none`). -/
def jvalToStrList : JVal → Option (List String)
  | JVal.arr xs =>
    xs.mapM (fun v =>
      match v with
      | JVal.str s => some s
      | _ => none)
  | _ => none

/-- Lift an absent field through validation: absent is fine, a present value
must be a list of strings. -/
def fieldFromPick : Option JVal → Option (Option (List String))
  | none => some none
  | some v =>
    match jvalToStrList v with
    | some l => some (some l)
    | none => none

/-- Construction of the `FilterPayload` inside `get_insights`
(`src/app.py` lines 196-201), including the pydantic validation; `none` is
the `ValidationError` path that the generic handler turns into HTTP 500. -/
def buildFilterPayload (parsed : List (String × JVal)) : Option FilterPayload :=
  match fieldFromPick (pick parsed "brand" "Marca"),
        fieldFromPick (pick parsed "platform" "Plataforma"),
        fieldFromPick (pick parsed "insight_type" "Tipo de insight"),
        fieldFromPick (pick parsed "month" "Mês") with
  | some b, some p, some it, some m => some ⟨b, p, it, m⟩
  | _, _, _, _ => none

/-- Result of the `/api/getData` endpoint: a success body or an HTTP error. -/
inductive DataResult where
  | ok (insights : List Row) (brands platforms : List String)
  | error (code : Nat) (msg : String)

/-- Model of `get_insights` (`src/app.py` lines 180-221): parse the filters
parameter (`json.loads(filters) if filters else {}`), answer HTTP 400 before
any fetch when it is invalid JSON, build the payload (HTTP 500 on a pydantic
validation error), then fetch through the cache and run the pipeline.  When
the parsed JSON is not an object the model treats it as having no keys; the
source instead runs Python `in` on the non-dict value, a path no claim
exercises. -/
def getInsightsHandler (env : SheetsEnv) (st : CacheState)
    (filters search startDate endDate : Option String) : DataResult × CacheState :=
  let parsedOpt : Option (List (String × JVal)) :=
    match filters with
    | none => some []
    | some s =>
      if s = "" then some []
      else
        match jsonLoads s with
        | some (JVal.obj fields) => some fields
        | some _ => some []
        | none => none
  match parsedOpt with
  | none => (DataResult.error 400 "Formato de filtros inválido.", st)
  | some parsed =>
    match buildFilterPayload parsed with
    | none => (DataResult.error 500 "Falha ao processar: ValidationError", st)
    | some fp =>
      let p := fetchAllData env st
      let dff := filterPipeline (orGetRows p.1 "insights" "BANCO_INSIGHTS")
        { filters := some fp, search := search, start_date := startDate, end_date := endDate }
      (DataResult.ok dff.rows
        (uniqueSortedValues (orGetRows p.1 "marcas" "MARCAS") "Marca")
        (uniqueSortedValues (orGetRows p.1 "plataformas" "PLATAFORMAS") "Plataforma"),
       p.2)

/-!
Helper definitions and lemmas for the theorems.
-/

/-- Value of one canonical field across an optional payload. -/
def optGet (f : Option FilterPayload) (k : String) : Option (List String) :=
  match f with
  | some fp => payloadGet fp k
  | none => none

/-- Criterion one `canonStep` imposes on a row, with the column-existence
guard of the source. -/
def fieldCriterionHolds (vals : Option (List String)) (colname : String)
    (cols : List String) (r : Row) : Bool :=
  match vals with
  | some values =>
    if ¬ values.isEmpty ∧ cols.contains colname then cellIsin (getCell r colname) values
    else true
  | none => true

/-- Criterion of the specification's reading of equality-set filtering,
stated from the spec's words: a non-empty accepted-value set requires
membership, an empty or absent set imposes no constraint. -/
def memberOfCriterion (vals : Option (List String)) (colname : String) (r : Row) : Bool :=
  match vals with
  | some values => if values.isEmpty then true else cellIsin (getCell r colname) values
  | none => true

lemma canonStep_eq (fp : FilterPayload) (out : DataFrame) (kv : String × String) :
    canonStep fp out kv =
      { cols := out.cols,
        rows := out.rows.filter (fieldCriterionHolds (payloadGet fp kv.1) kv.2 out.cols) } := by
  unfold canonStep
  cases h : payloadGet fp kv.1 with
  | none =>
    have hconst : fieldCriterionHolds none kv.2 out.cols = fun _ => true := rfl
    simp [hconst]
  | some values =>
    by_cases hc : ¬ values.isEmpty = true ∧ out.cols.contains kv.2 = true
    · have hfn : fieldCriterionHolds (some values) kv.2 out.cols
          = fun r => cellIsin (getCell r kv.2) values := by
        funext r
        unfold fieldCriterionHolds
        dsimp only
        rw [if_pos hc]
      dsimp only
      rw [if_pos hc, hfn]
    · have hfn : fieldCriterionHolds (some values) kv.2 out.cols = fun _ => true := by
        funext r
        unfold fieldCriterionHolds
        dsimp only
        rw [if_neg hc]
      dsimp only
      rw [if_neg hc, hfn, List.filter_true]

lemma applyCanonicalFilters_eq (df : DataFrame) (f : Option FilterPayload) :
    applyCanonicalFilters df f =
      { cols := df.cols,
        rows := df.rows.filter (fun r =>
          fieldCriterionHolds (optGet f "brand") "Marca" df.cols r &&
          fieldCriterionHolds (optGet f "platform") "Plataforma" df.cols r &&
          fieldCriterionHolds (optGet f "insight_type") "Tipo de insight" df.cols r &&
          fieldCriterionHolds (optGet f "month") "Mês" df.cols r) } := by
  cases f with
  | none =>
    have hconst : (fun r =>
        fieldCriterionHolds (optGet none "brand") "Marca" df.cols r &&
        fieldCriterionHolds (optGet none "platform") "Plataforma" df.cols r &&
        fieldCriterionHolds (optGet none "insight_type") "Tipo de insight" df.cols r &&
        fieldCriterionHolds (optGet none "month") "Mês" df.cols r) = fun _ => true := rfl
    simp [applyCanonicalFilters, hconst]
  | some fp =>
    show List.foldl (canonStep fp) df CANON_TO_COL = _
    rw [show CANON_TO_COL = [("brand", "Marca"), ("platform", "Plataforma"),
      ("insight_type", "Tipo de insight"), ("month", "Mês")] from rfl]
    simp only [List.foldl_cons, List.foldl_nil]
    rw [canonStep_eq, canonStep_eq, canonStep_eq, canonStep_eq]
    simp only [List.filter_filter, optGet]
    refine congrArg (fun rs => DataFrame.mk df.cols rs) ?_
    apply List.filter_congr
    intro r hr
    generalize fieldCriterionHolds (payloadGet fp "brand") "Marca" df.cols r = b1
    generalize fieldCriterionHolds (payloadGet fp "platform") "Plataforma" df.cols r = b2
    generalize fieldCriterionHolds (payloadGet fp "insight_type") "Tipo de insight" df.cols r = b3
    generalize fieldCriterionHolds (payloadGet fp "month") "Mês" df.cols r = b4
    cases b1 <;> cases b2 <;> cases b3 <;> cases b4 <;> rfl

/-- Criterion the start bound imposes on a row, stated from the spec's
words: an active (supplied and parseable) bound requires the parsed report
date to be `>=` it, an inactive bound imposes no constraint. -/
def startCriterion (startDate : Option String) (r : Row) : Bool :=
  match startDate with
  | some s =>
    if s = "" then true
    else
      match parseBoundDate s with
      | some b => cellGeDate (getCell r DATE_COL) b
      | none => true
  | none => true

/-- Criterion the end bound imposes on a row. -/
def endCriterion (endDate : Option String) (r : Row) : Bool :=
  match endDate with
  | some s =>
    if s = "" then true
    else
      match parseBoundDate s with
      | some b => cellLeDate (getCell r DATE_COL) b
      | none => true
  | none => true

lemma applyStartBound_eq (df : DataFrame) (sD : Option String) :
    applyStartBound df sD = { cols := df.cols, rows := df.rows.filter (startCriterion sD) } := by
  cases sD with
  | none =>
    have hconst : startCriterion none = fun _ => true := rfl
    rw [hconst, List.filter_true]
    rfl
  | some s =>
    unfold applyStartBound
    dsimp only
    by_cases hs : s = ""
    · have hconst : startCriterion (some s) = fun _ => true := by
        funext r
        unfold startCriterion
        dsimp only
        rw [if_pos hs]
      rw [if_pos hs, hconst, List.filter_true]
    · rw [if_neg hs]
      cases hp : parseBoundDate s with
      | some b =>
        have hfn : startCriterion (some s) = fun r => cellGeDate (getCell r DATE_COL) b := by
          funext r
          unfold startCriterion
          dsimp only
          rw [if_neg hs, hp]
        rw [hfn]
      | none =>
        have hconst : startCriterion (some s) = fun _ => true := by
          funext r
          unfold startCriterion
          dsimp only
          rw [if_neg hs, hp]
        rw [hconst, List.filter_true]

lemma applyEndBound_eq (df : DataFrame) (eD : Option String) :
    applyEndBound df eD = { cols := df.cols, rows := df.rows.filter (endCriterion eD) } := by
  cases eD with
  | none =>
    have hconst : endCriterion none = fun _ => true := rfl
    rw [hconst, List.filter_true]
    rfl
  | some s =>
    unfold applyEndBound
    dsimp only
    by_cases hs : s = ""
    · have hconst : endCriterion (some s) = fun _ => true := by
        funext r
        unfold endCriterion
        dsimp only
        rw [if_pos hs]
      rw [if_pos hs, hconst, List.filter_true]
    · rw [if_neg hs]
      cases hp : parseBoundDate s with
      | some b =>
        have hfn : endCriterion (some s) = fun r => cellLeDate (getCell r DATE_COL) b := by
          funext r
          unfold endCriterion
          dsimp only
          rw [if_neg hs, hp]
        rw [hfn]
      | none =>
        have hconst : endCriterion (some s) = fun _ => true := by
          funext r
          unfold endCriterion
          dsimp only
          rw [if_neg hs, hp]
        rw [hconst, List.filter_true]

lemma applyDateRange_eq (df : DataFrame) (h : DATE_COL ∈ df.cols) (sD eD : Option String) :
    applyDateRange df sD eD =
      { cols := df.cols,
        rows := df.rows.filter (fun r => startCriterion sD r && endCriterion eD r) } := by
  have hc : df.cols.contains DATE_COL = true := List.elem_iff.mpr h
  unfold applyDateRange
  rw [if_neg (not_not_intro hc)]
  rw [applyStartBound_eq, applyEndBound_eq]
  simp only [List.filter_filter]
  refine congrArg (fun rs => DataFrame.mk df.cols rs) ?_
  apply List.filter_congr
  intro r hr
  cases startCriterion sD r <;> cases endCriterion eD r <;> rfl

lemma fieldCriterion_eq_member (vals : Option (List String)) (col : String)
    (cols : List String) (r : Row) (h : col ∈ cols) :
    fieldCriterionHolds vals col cols r = memberOfCriterion vals col r := by
  cases vals with
  | none => rfl
  | some values =>
    have hcont : cols.contains col = true := List.elem_iff.mpr h
    unfold fieldCriterionHolds memberOfCriterion
    dsimp only
    by_cases he : values.isEmpty = true
    · rw [if_neg (by simp [he]), if_pos he]
    · rw [if_pos ⟨he, hcont⟩, if_neg he]

/-- C6: equality-set filtering retains, for each canonical field with a
non-empty accepted-value set, exactly the rows whose column value is a member
of that set; an empty or absent criteria set imposes no constraint, and the
criteria of the four fields are conjoined. -/
theorem applyCanonicalFilters_membership_conjunction
    (df : DataFrame) (f : Option FilterPayload)
    (h : ∀ kv ∈ CANON_TO_COL, kv.2 ∈ df.cols) :
    (applyCanonicalFilters df f).cols = df.cols ∧
    (applyCanonicalFilters df f).rows = df.rows.filter (fun r =>
      memberOfCriterion (optGet f "brand") "Marca" r &&
      memberOfCriterion (optGet f "platform") "Plataforma" r &&
      memberOfCriterion (optGet f "insight_type") "Tipo de insight" r &&
      memberOfCriterion (optGet f "month") "Mês" r) := by
  rw [applyCanonicalFilters_eq]
  refine ⟨rfl, ?_⟩
  apply List.filter_congr
  intro r hr
  rw [fieldCriterion_eq_member _ _ _ _ (h ("brand", "Marca") (by decide)),
    fieldCriterion_eq_member _ _ _ _ (h ("platform", "Plataforma") (by decide)),
    fieldCriterion_eq_member _ _ _ _ (h ("insight_type", "Tipo de insight") (by decide)),
    fieldCriterion_eq_member _ _ _ _ (h ("month", "Mês") (by decide))]

/-- Two-row frame from the spec's filtering scenario. -/
def dfScenario : DataFrame :=
  { cols := REQUIRED_COLS,
    rows := [
      [("Marca", Cell.str "Corona"), ("Plataforma", Cell.null), ("Insight", Cell.null),
       ("Data do report/status", Cell.null), ("Mês", Cell.str "Março"), ("Tipo de insight", Cell.null)],
      [("Marca", Cell.str "Stella"), ("Plataforma", Cell.null), ("Insight", Cell.null),
       ("Data do report/status", Cell.null), ("Mês", Cell.str "Janeiro"), ("Tipo de insight", Cell.null)]] }

/-- Brand-only filter payload of the spec's scenario. -/
def fpBrandCorona : Option FilterPayload :=
  some { brand := some ["Corona"], platform := none, insight_type := none, month := none }

theorem applyCanonicalFilters_membership_conjunction_witness :
    (applyCanonicalFilters dfScenario fpBrandCorona).cols = dfScenario.cols ∧
    (applyCanonicalFilters dfScenario fpBrandCorona).rows = dfScenario.rows.filter (fun r =>
      memberOfCriterion (optGet fpBrandCorona "brand") "Marca" r &&
      memberOfCriterion (optGet fpBrandCorona "platform") "Plataforma" r &&
      memberOfCriterion (optGet fpBrandCorona "insight_type") "Tipo de insight" r &&
      memberOfCriterion (optGet fpBrandCorona "month") "Mês" r) :=
  applyCanonicalFilters_membership_conjunction dfScenario fpBrandCorona (by decide)

/-- C5: the date-range filter keeps exactly the rows whose parsed report
date satisfies each active bound inclusively (`>=` start and `<=` end); a
row with an unparseable (null) report date fails `cellGeDate`/`cellLeDate`
and is excluded whenever a valid bound is active, while an unsupplied or
unparseable bound imposes no constraint. -/
theorem applyDateRange_inclusive_bounds (df : DataFrame) (sD eD : Option String)
    (h : DATE_COL ∈ df.cols) :
    (applyDateRange df sD eD).cols = df.cols ∧
    (applyDateRange df sD eD).rows =
      df.rows.filter (fun r => startCriterion sD r && endCriterion eD r) := by
  rw [applyDateRange_eq df h sD eD]
  exact ⟨rfl, rfl⟩

/-- Three-row frame with two parsed report dates and one null date. -/
def dfDates : DataFrame :=
  { cols := ["Data do report/status", "Insight"],
    rows := [
      [("Data do report/status", Cell.date 20240315), ("Insight", Cell.str "a")],
      [("Data do report/status", Cell.date 20230101), ("Insight", Cell.str "b")],
      [("Data do report/status", Cell.null), ("Insight", Cell.str "c")]] }

theorem applyDateRange_inclusive_bounds_witness :
    (applyDateRange dfDates (some "2024-01-01") (some "2024-12-31")).cols = dfDates.cols ∧
    (applyDateRange dfDates (some "2024-01-01") (some "2024-12-31")).rows =
      dfDates.rows.filter (fun r =>
        startCriterion (some "2024-01-01") r && endCriterion (some "2024-12-31") r) :=
  applyDateRange_inclusive_bounds dfDates (some "2024-01-01") (some "2024-12-31") (by decide)

lemma isPrefixOf_self (l : List Char) : l.isPrefixOf l = true := by
  induction l with
  | nil => rfl
  | cons a t ih => simp [List.isPrefixOf, ih]

lemma containsSub_self (l : List Char) : containsSub l l = true := by
  cases l with
  | nil => rfl
  | cons a t =>
    unfold containsSub
    rw [isPrefixOf_self]
    rfl

lemma strContains_self (x : String) : strContains x x = true :=
  containsSub_self x.toList

/-- One-row frame whose searchable value carries diacritics, already in
lower case on both sides. -/
def dfAccent : DataFrame :=
  { cols := ["Insight"], rows := [[("Insight", Cell.str "ação")]] }

/-- C3 counterexample: the search term `acao` (no diacritics) does not match
the stored value `ação`; both strings are unchanged by lower-casing, so the
failure is purely the missing diacritic normalisation. -/
theorem applySearch_accent_counterexample :
    (applySearch dfAccent (some "acao")).rows = [] ∧
    pyLower "acao" = "acao" ∧ pyLower "ação" = "ação" := by decide

/-- C3 (amended): free-text search is case-insensitive — a row whose
searchable cell equals the term up to letter case is retained — but it is
not accent-insensitive: the lower-cased term must match with diacritics
intact, as the counterexample shows. -/
theorem applySearch_case_insensitive
    (df : DataFrame) (t s : String) (r : Row) (col : String)
    (hr : r ∈ df.rows) (hsc : col ∈ SEARCHABLE_COLS) (hdc : col ∈ df.cols)
    (hcell : getCell r col = Cell.str s)
    (hlower : pyLower s = pyLower t) (ht : t ≠ "") :
    r ∈ (applySearch df (some t)).rows := by
  unfold applySearch
  dsimp only
  rw [if_neg ht]
  have hmem : col ∈ SEARCHABLE_COLS.filter (fun c => df.cols.contains c) :=
    List.mem_filter.mpr ⟨hsc, List.elem_iff.mpr hdc⟩
  have hne : (SEARCHABLE_COLS.filter (fun c => df.cols.contains c)).isEmpty = false :=
    List.isEmpty_eq_false.mpr (List.ne_nil_of_mem hmem)
  rw [if_neg (by rw [hne]; exact Bool.false_ne_true)]
  apply List.mem_filter.mpr
  refine ⟨hr, ?_⟩
  apply List.any_eq_true.mpr
  refine ⟨col, hmem, ?_⟩
  rw [hcell]
  show strContains (pyLower (cellStr (Cell.str s))) (pyLower t) = true
  have hstr : cellStr (Cell.str s) = s := rfl
  rw [hstr, hlower]
  exact strContains_self _

/-- One-row frame holding the lower-case brand value of the spec's search
scenario. -/
def dfBud : DataFrame :=
  { cols := ["Marca"], rows := [[("Marca", Cell.str "budweiser")]] }

theorem applySearch_case_insensitive_witness :
    [("Marca", Cell.str "budweiser")] ∈ (applySearch dfBud (some "BUDWEISER")).rows :=
  applySearch_case_insensitive dfBud "BUDWEISER" "budweiser"
    [("Marca", Cell.str "budweiser")] "Marca"
    (by decide) (by decide) (by decide) (by decide) (by decide) (by decide)

instance : IsTotal Row (fun r1 r2 => dateSortLE r1 r2 = true) := by
  constructor
  intro a b
  unfold dateSortLE
  cases getCell a DATE_COL <;> cases getCell b DATE_COL <;> (simp; try omega)

instance : IsTrans Row (fun r1 r2 => dateSortLE r1 r2 = true) := by
  constructor
  intro a b c hab hbc
  unfold dateSortLE at *
  cases ha : getCell a DATE_COL <;> cases hb : getCell b DATE_COL <;>
    cases hc : getCell c DATE_COL <;> (simp_all; try omega)

/-- Ordering constraint of the claim on two output rows, earlier row first:
whenever the later row carries a parsed report date, the earlier row carries
one at least as large.  In particular a null-dated row never precedes a
dated row, and dated rows are in descending date order. -/
def nullsAfterDates (r1 r2 : Row) : Prop :=
  ∀ b, getCell r2 DATE_COL = Cell.date b →
    ∃ a, getCell r1 DATE_COL = Cell.date a ∧ b ≤ a

lemma dateSortLE_to_prop (r1 r2 : Row) (h : dateSortLE r1 r2 = true) :
    nullsAfterDates r1 r2 := by
  intro b hb
  unfold dateSortLE at h
  rw [hb] at h
  cases ha : getCell r1 DATE_COL <;> rw [ha] at h
  · exact absurd h (by simp)
  · exact ⟨_, rfl, by simpa using h⟩
  · exact absurd h (by simp)

lemma formatStep_rows_map (d : DataFrame) (col : String) :
    ∃ g, (formatStep d col).rows = d.rows.map g ∧ (formatStep d col).cols = d.cols := by
  unfold formatStep
  by_cases hc : d.cols.contains col = true ∧ colIsDatetime d col = true
  · rw [if_pos hc]
    exact ⟨_, rfl, rfl⟩
  · rw [if_neg hc]
    exact ⟨id, (List.map_id _).symm, rfl⟩

lemma formatDateCols_rows_map (df : DataFrame) :
    ∃ g, (formatDateCols df).rows = df.rows.map g ∧ (formatDateCols df).cols = df.cols := by
  have hfold : formatDateCols df = formatStep (formatStep df DATE_COL) "LTV" := rfl
  obtain ⟨g1, hg1, hc1⟩ := formatStep_rows_map df DATE_COL
  obtain ⟨g2, hg2, hc2⟩ := formatStep_rows_map (formatStep df DATE_COL) "LTV"
  refine ⟨g2 ∘ g1, ?_, ?_⟩
  · rw [hfold, hg2, hg1, List.map_map]
  · rw [hfold, hc2, hc1]

lemma sortRowsByDate_rows (df : DataFrame) (h : DATE_COL ∈ df.cols) :
    (sortRowsByDate df).rows
      = List.insertionSort (fun r1 r2 => dateSortLE r1 r2 = true) df.rows ∧
    (sortRowsByDate df).cols = df.cols := by
  unfold sortRowsByDate
  rw [if_pos (List.elem_iff.mpr h)]
  exact ⟨rfl, rfl⟩

/-- C7: in the finalized output, the reformat step maps the sorted rows in
place, and the sorted row sequence — a permutation of the input rows, so the
placement holds regardless of input order — is pairwise ordered with every
null/unparseable report date after all parseable ones and the parseable
dates in one consistent (descending) direction. -/
theorem finalizeDf_null_dates_last (df : DataFrame) (h : DATE_COL ∈ df.cols) :
    (∃ fmtRow : Row → Row, (finalizeDf df).rows = ((sortRowsByDate df).rows).map fmtRow) ∧
    List.Pairwise nullsAfterDates (sortRowsByDate df).rows ∧
    (sortRowsByDate df).rows.Perm df.rows := by
  obtain ⟨hs, _⟩ := sortRowsByDate_rows df h
  refine ⟨?_, ?_, ?_⟩
  · obtain ⟨g, hg, _⟩ := formatDateCols_rows_map (sortRowsByDate df)
    exact ⟨g, hg⟩
  · rw [hs]
    exact (List.sorted_insertionSort _ df.rows).imp (fun hab => dateSortLE_to_prop _ _ hab)
  · rw [hs]
    exact List.perm_insertionSort _ df.rows

/-- Three-row frame, input order scrambled: a null date first, then an older
and a newer parsed date. -/
def dfSort : DataFrame :=
  { cols := ["Data do report/status"],
    rows := [
      [("Data do report/status", Cell.null)],
      [("Data do report/status", Cell.date 20230101)],
      [("Data do report/status", Cell.date 20240315)]] }

theorem finalizeDf_null_dates_last_witness :
    (∃ fmtRow : Row → Row, (finalizeDf dfSort).rows = ((sortRowsByDate dfSort).rows).map fmtRow) ∧
    List.Pairwise nullsAfterDates (sortRowsByDate dfSort).rows ∧
    (sortRowsByDate dfSort).rows.Perm dfSort.rows :=
  finalizeDf_null_dates_last dfSort (by decide)

/-- Environment in which authentication fails (`get_sheets_client` returns
`None`), so a fetch attempt yields the empty dict. -/
def envAuthFail : SheetsEnv :=
  { clientOk := false, spreadsheetFound := true, worksheets := [] }

/-- C2 counterexample: the first call fails and yields the empty result, yet
the empty failure result is stored in the cache, and the second call returns
it from cache with the fetch-attempt count still at one — no fresh fetch
attempt is performed. -/
theorem fetchAllData_failure_is_cached :
    (fetchAllData envAuthFail initialCache).1 = [] ∧
    (fetchAllData envAuthFail initialCache).2 = { cached := some [], attempts := 1 } ∧
    fetchAllData envAuthFail ((fetchAllData envAuthFail initialCache).2)
      = ([], { cached := some [], attempts := 1 }) := by decide

/-- C2 (amended): `lru_cache` stores every result, failures included: after
any call, a subsequent call returns the first call's result with the cache
state unchanged (so no fresh fetch attempt happens until process restart). -/
theorem fetchAllData_caches_all_results (env : SheetsEnv) (st : CacheState) :
    fetchAllData env ((fetchAllData env st).2)
      = ((fetchAllData env st).1, (fetchAllData env st).2) := by
  cases h : st.cached <;> simp [fetchAllData, h]

/-- Environment in which the spreadsheet opens but has no worksheets. -/
def envNoSheets : SheetsEnv :=
  { clientOk := true, spreadsheetFound := true, worksheets := [] }

/-- C4 counterexample: with the insights worksheet missing, the empty
substitute is stored under the original worksheet name `BANCO_INSIGHTS`, and
nothing is stored under the normalized stable key `insights`. -/
theorem fetchAllDataRaw_missing_sheet_counterexample :
    assocGet (fetchAllDataRaw envNoSheets) "insights" = none ∧
    assocGet (fetchAllDataRaw envNoSheets) "BANCO_INSIGHTS" = some [] := by decide

/-- C4 (amended): a missing worksheet is tolerated by substituting an empty
list without raising, stored under the ORIGINAL worksheet name; only a
worksheet that is found is stored under its normalized stable key. -/
theorem fetchAllDataRaw_key_normalization (env : SheetsEnv)
    (hc : env.clientOk = true) (hs : env.spreadsheetFound = true) :
    ∀ name ∈ WORKSHEETS_TO_FETCH,
      (∀ data, assocGet env.worksheets name = some data →
        assocGet (fetchAllDataRaw env) (normalizeWorksheetKey name) = some data) ∧
      (assocGet env.worksheets name = none →
        assocGet (fetchAllDataRaw env) name = some []) := by
  have hn1 : normalizeWorksheetKey "BANCO_INSIGHTS" = "insights" := by decide
  have hn2 : normalizeWorksheetKey "MARCAS" = "marcas" := by decide
  have hn3 : normalizeWorksheetKey "PLATAFORMAS" = "plataformas" := by decide
  have expand : fetchAllDataRaw env =
      WORKSHEETS_TO_FETCH.foldl
        (fun acc name =>
          match assocGet env.worksheets name with
          | some data => assocSet acc (normalizeWorksheetKey name) data
          | none => assocSet acc name [])
        [] := by
    simp [fetchAllDataRaw, hc, hs]
  intro name hname
  fin_cases hname
  · refine ⟨fun data hd => ?_, fun hd => ?_⟩ <;>
      rcases h2 : assocGet env.worksheets "MARCAS" with _ | d2 <;>
        rcases h3 : assocGet env.worksheets "PLATAFORMAS" with _ | d3 <;>
          (simp only [expand, WORKSHEETS_TO_FETCH, List.foldl_cons, List.foldl_nil,
            hd, h2, h3, hn1, hn2, hn3]
           simp [assocSet, assocGet])
  · refine ⟨fun data hd => ?_, fun hd => ?_⟩ <;>
      rcases h1 : assocGet env.worksheets "BANCO_INSIGHTS" with _ | d1 <;>
        rcases h3 : assocGet env.worksheets "PLATAFORMAS" with _ | d3 <;>
          (simp only [expand, WORKSHEETS_TO_FETCH, List.foldl_cons, List.foldl_nil,
            hd, h1, h3, hn1, hn2, hn3]
           simp [assocSet, assocGet])
  · refine ⟨fun data hd => ?_, fun hd => ?_⟩ <;>
      rcases h1 : assocGet env.worksheets "BANCO_INSIGHTS" with _ | d1 <;>
        rcases h2 : assocGet env.worksheets "MARCAS" with _ | d2 <;>
          (simp only [expand, WORKSHEETS_TO_FETCH, List.foldl_cons, List.foldl_nil,
            hd, h1, h2, hn1, hn2, hn3]
           simp [assocSet, assocGet])

/-- Worksheet environment holding one insights row and no other sheets. -/
def envOneSheet : SheetsEnv :=
  { clientOk := true, spreadsheetFound := true,
    worksheets := [("BANCO_INSIGHTS", [[("Marca", Cell.str "Corona")]])] }

theorem fetchAllDataRaw_key_normalization_witness :
    (∀ data, assocGet envOneSheet.worksheets "BANCO_INSIGHTS" = some data →
      assocGet (fetchAllDataRaw envOneSheet) (normalizeWorksheetKey "BANCO_INSIGHTS") = some data) ∧
    (assocGet envOneSheet.worksheets "BANCO_INSIGHTS" = none →
      assocGet (fetchAllDataRaw envOneSheet) "BANCO_INSIGHTS" = some []) :=
  fetchAllDataRaw_key_normalization envOneSheet rfl rfl "BANCO_INSIGHTS" (by decide)

/-- C9: when the upstream fetch fails (no client from authentication, or the
spreadsheet is not found) on an uncached call, the metadata endpoint answers
the complete empty-success body — empty brands and platforms — rather than a
partial response or an error. -/
theorem getMetadata_empty_on_fetch_failure (env : SheetsEnv) (st : CacheState)
    (hcache : st.cached = none)
    (hfail : env.clientOk = false ∨ env.spreadsheetFound = false) :
    (getMetadataHandler env st).1 = MetaResult.ok { brands := [], platforms := [] } := by
  have hraw : fetchAllDataRaw env = [] := by
    rcases hfail with h | h <;> simp [fetchAllDataRaw, h]
  have hfetch : fetchAllData env st
      = ([], { cached := some [], attempts := st.attempts + 1 }) := by
    simp [fetchAllData, hcache, hraw]
  simp [getMetadataHandler, hfetch, orGetRows, assocGet, uniqueSortedValues]

theorem getMetadata_empty_on_fetch_failure_witness :
    (getMetadataHandler envAuthFail initialCache).1
      = MetaResult.ok { brands := [], platforms := [] } :=
  getMetadata_empty_on_fetch_failure envAuthFail initialCache rfl (Or.inl rfl)

/-- C8: a GET `/api/getData` request whose filters parameter is not valid
JSON is answered with HTTP 400 and the descriptive message, with the cache
state returned unchanged — the data source is not touched. -/
theorem getInsights_invalid_json_400 (env : SheetsEnv) (st : CacheState)
    (s : String) (search startDate endDate : Option String)
    (hs : s ≠ "") (hjson : jsonLoads s = none) :
    getInsightsHandler env st (some s) search startDate endDate
      = (DataResult.error 400 "Formato de filtros inválido.", st) := by
  simp [getInsightsHandler, hs, hjson]

theorem getInsights_invalid_json_400_witness :
    getInsightsHandler envNoSheets initialCache (some "\x7b") none none none
      = (DataResult.error 400 "Formato de filtros inválido.", initialCache) :=
  getInsights_invalid_json_400 envNoSheets initialCache "\x7b" none none none
    (by decide) (by rfl)

/-- C10: among the filters of GET `/api/getData`, a truthy canonical key
takes precedence over the corresponding legacy column name whenever both are
present (the legacy value is ignored), and a truthy legacy value supplied as
a single string is accepted and wrapped into a one-element value list when
the canonical key is absent or falsy. -/
theorem pick_canonical_precedence :
    ∀ parsed keyCanon legacyCol, (keyCanon, legacyCol) ∈ CANON_TO_COL →
      (∀ v, jLookup parsed keyCanon = some v → jvTruthy v = true →
        pick parsed keyCanon legacyCol = some v) ∧
      (∀ s, (jLookup parsed keyCanon = none ∨
          ∃ v', jLookup parsed keyCanon = some v' ∧ jvTruthy v' = false) →
        jLookup parsed legacyCol = some (JVal.str s) → s ≠ "" →
        pick parsed keyCanon legacyCol = some (JVal.arr [JVal.str s])) := by
  intro parsed keyCanon legacyCol hmem
  constructor
  · intro v hv htr
    unfold pick
    rw [hv]
    dsimp only
    rw [if_pos htr]
  · intro s hcanon hleg hs
    have hlegacy : pickLegacy parsed legacyCol = some (JVal.arr [JVal.str s]) := by
      unfold pickLegacy
      rw [hleg]
      dsimp only
      rw [if_pos (by simp [jvTruthy, hs])]
    rcases hcanon with h | ⟨v', hv', hf⟩
    · unfold pick
      rw [h]
      dsimp only
      exact hlegacy
    · unfold pick
      rw [hv']
      dsimp only
      rw [if_neg (by simp [hf])]
      exact hlegacy

/-- Parsed filters object carrying both the canonical and the legacy brand
key, with truthy values. -/
def parsedBothKeys : List (String × JVal) :=
  [("brand", JVal.arr [JVal.str "Corona"]), ("Marca", JVal.str "Stella")]

/-- Parsed filters object carrying only the legacy brand key, as a single
string. -/
def parsedLegacyOnly : List (String × JVal) := [("Marca", JVal.str "Stella")]

theorem pick_canonical_precedence_witness :
    pick parsedBothKeys "brand" "Marca" = some (JVal.arr [JVal.str "Corona"]) ∧
    pick parsedLegacyOnly "brand" "Marca" = some (JVal.arr [JVal.str "Stella"]) :=
  ⟨(pick_canonical_precedence parsedBothKeys "brand" "Marca" (by decide)).1
      (JVal.arr [JVal.str "Corona"]) rfl rfl,
    (pick_canonical_precedence parsedLegacyOnly "brand" "Marca" (by decide)).2
      "Stella" (Or.inl rfl) rfl (by decide)⟩

/-- Invariant of the model frames: every row is total over the columns, in
column order (as pandas materialises rows). -/
def Aligned (df : DataFrame) : Prop := ∀ r ∈ df.rows, rowKeys r = df.cols

lemma rowKeys_alignRow (cols : List String) (r : Row) :
    rowKeys (alignRow cols r) = cols := by
  unfold rowKeys alignRow
  rw [List.map_map]
  exact List.map_id cols

lemma aligned_mkDataFrame (data : List Row) : Aligned (mkDataFrame data) := by
  intro r hr
  simp only [mkDataFrame, List.mem_map] at hr
  obtain ⟨r0, _, rfl⟩ := hr
  exact rowKeys_alignRow _ r0

lemma ensureStep_aligned (d : DataFrame) (col : String) (h : Aligned d) :
    Aligned (ensureStep d col) := by
  unfold ensureStep
  split_ifs with hc
  · exact h
  · intro r hr
    simp only [List.mem_map] at hr
    obtain ⟨r0, hr0, rfl⟩ := hr
    show rowKeys (r0 ++ [(col, Cell.null)]) = d.cols ++ [col]
    rw [rowKeys, List.map_append, ← rowKeys, h r0 hr0]
    rfl

lemma ensureStep_cols_mono (d : DataFrame) (col : String) :
    d.cols ⊆ (ensureStep d col).cols := by
  unfold ensureStep
  split_ifs with hc
  · exact fun c hcm => hcm
  · exact fun c hcm => List.mem_append_left _ hcm

lemma ensureStep_col_mem (d : DataFrame) (col : String) :
    col ∈ (ensureStep d col).cols := by
  unfold ensureStep
  split_ifs with hc
  · exact List.elem_iff.mp hc
  · exact List.mem_append_right _ (List.mem_singleton.mpr rfl)

lemma ensure_fold_spec (cs : List String) :
    ∀ df : DataFrame, Aligned df →
      Aligned (cs.foldl ensureStep df) ∧
      df.cols ⊆ (cs.foldl ensureStep df).cols ∧
      ∀ c ∈ cs, c ∈ (cs.foldl ensureStep df).cols := by
  induction cs with
  | nil =>
    intro df h
    exact ⟨h, fun c hc => hc, by simp⟩
  | cons a t ih =>
    intro df h
    simp only [List.foldl_cons]
    obtain ⟨h1, h2, h3⟩ := ih (ensureStep df a) (ensureStep_aligned df a h)
    refine ⟨h1, (ensureStep_cols_mono df a).trans h2, ?_⟩
    intro c hc
    rcases List.mem_cons.mp hc with rfl | hct
    · exact h2 (ensureStep_col_mem df c)
    · exact h3 c hct

lemma ensureRequiredCols_spec (df : DataFrame) (h : Aligned df) :
    Aligned (ensureRequiredCols df) ∧
    ∀ c ∈ REQUIRED_COLS, c ∈ (ensureRequiredCols df).cols := by
  obtain ⟨h1, _, h3⟩ := ensure_fold_spec REQUIRED_COLS df h
  exact ⟨h1, h3⟩

lemma rowKeys_mapEntry (r : Row) (col : String) (f : Cell → Cell) :
    rowKeys (r.map (fun p => if p.1 = col then (p.1, f p.2) else p)) = rowKeys r := by
  induction r with
  | nil => rfl
  | cons p t ih =>
    simp only [List.map_cons, rowKeys] at *
    split_ifs with hp <;> simp [ih]

lemma mapCol_aligned (df : DataFrame) (col : String) (f : Cell → Cell)
    (h : Aligned df) : Aligned (mapCol df col f) := by
  intro r hr
  simp only [mapCol, List.mem_map] at hr
  obtain ⟨r0, hr0, rfl⟩ := hr
  show rowKeys (r0.map _) = df.cols
  rw [rowKeys_mapEntry, h r0 hr0]

lemma parseStep_spec (d : DataFrame) (col : String) :
    (parseStep d col).cols = d.cols ∧ (Aligned d → Aligned (parseStep d col)) := by
  unfold parseStep
  split_ifs with hc
  · exact ⟨rfl, mapCol_aligned d col parseDateCell⟩
  · exact ⟨rfl, fun h => h⟩

lemma parseSheetDates_spec (df : DataFrame) :
    (parseSheetDates df).cols = df.cols ∧ (Aligned df → Aligned (parseSheetDates df)) := by
  have hfold : parseSheetDates df = parseStep (parseStep df DATE_COL) "LTV" := rfl
  obtain ⟨hc1, ha1⟩ := parseStep_spec df DATE_COL
  obtain ⟨hc2, ha2⟩ := parseStep_spec (parseStep df DATE_COL) "LTV"
  rw [hfold]
  exact ⟨hc2.trans hc1, fun h => ha2 (ha1 h)⟩

lemma formatStep_spec (d : DataFrame) (col : String) :
    (formatStep d col).cols = d.cols ∧ (Aligned d → Aligned (formatStep d col)) := by
  unfold formatStep
  split_ifs with hc
  · exact ⟨rfl, mapCol_aligned d col fmtDateCell⟩
  · exact ⟨rfl, fun h => h⟩

lemma formatDateCols_spec (df : DataFrame) :
    (formatDateCols df).cols = df.cols ∧ (Aligned df → Aligned (formatDateCols df)) := by
  have hfold : formatDateCols df = formatStep (formatStep df DATE_COL) "LTV" := rfl
  obtain ⟨hc1, ha1⟩ := formatStep_spec df DATE_COL
  obtain ⟨hc2, ha2⟩ := formatStep_spec (formatStep df DATE_COL) "LTV"
  rw [hfold]
  exact ⟨hc2.trans hc1, fun h => ha2 (ha1 h)⟩

lemma aligned_of_sub (df df' : DataFrame) (hcols : df'.cols = df.cols)
    (hsub : ∀ r ∈ df'.rows, r ∈ df.rows) (h : Aligned df) : Aligned df' := by
  intro r hr
  rw [hcols]
  exact h r (hsub r hr)

lemma applyCanonicalFilters_sub (df : DataFrame) (f : Option FilterPayload) :
    (applyCanonicalFilters df f).cols = df.cols ∧
    ∀ r ∈ (applyCanonicalFilters df f).rows, r ∈ df.rows := by
  rw [applyCanonicalFilters_eq]
  exact ⟨rfl, fun r hr => (List.mem_filter.mp hr).1⟩

lemma applySearch_sub (df : DataFrame) (t : Option String) :
    (applySearch df t).cols = df.cols ∧
    ∀ r ∈ (applySearch df t).rows, r ∈ df.rows := by
  unfold applySearch
  cases t with
  | none => exact ⟨rfl, fun r hr => hr⟩
  | some s =>
    dsimp only
    split_ifs with h1 h2
    · exact ⟨rfl, fun r hr => hr⟩
    · exact ⟨rfl, fun r hr => hr⟩
    · exact ⟨rfl, fun r hr => (List.mem_filter.mp hr).1⟩

lemma applyDateRange_sub (df : DataFrame) (sD eD : Option String) :
    (applyDateRange df sD eD).cols = df.cols ∧
    ∀ r ∈ (applyDateRange df sD eD).rows, r ∈ df.rows := by
  unfold applyDateRange
  split_ifs with h
  · rw [applyEndBound_eq, applyStartBound_eq]
    refine ⟨rfl, fun r hr => ?_⟩
    exact (List.mem_filter.mp (List.mem_filter.mp hr).1).1
  · exact ⟨rfl, fun r hr => hr⟩

lemma sortRowsByDate_sub (df : DataFrame) :
    (sortRowsByDate df).cols = df.cols ∧
    ∀ r ∈ (sortRowsByDate df).rows, r ∈ df.rows := by
  unfold sortRowsByDate
  split_ifs with h
  · exact ⟨rfl, fun r hr => (List.mem_insertionSort _).mp hr⟩
  · exact ⟨rfl, fun r hr => hr⟩

/-- C1: every record the filter pipeline produces — hence every record the
`/api/data` and `/api/getData` responses carry — has all six required fields
present as keys (possibly with a null value), for every input row list
(including the empty one, where the output has no records) and every request
payload. -/
theorem filterPipeline_required_fields (data : List Row) (payload : DataRequest)
    (r : Row) (c : String)
    (hr : r ∈ (filterPipeline data payload).rows) (hc : c ∈ REQUIRED_COLS) :
    c ∈ rowKeys r := by
  unfold filterPipeline at hr
  by_cases hdata : data.isEmpty = true
  · rw [if_pos hdata] at hr
    exact absurd hr (List.not_mem_nil r)
  · rw [if_neg hdata] at hr
    set df1 := ensureRequiredCols (mkDataFrame data) with hdf1
    obtain ⟨h1A, h1R⟩ := ensureRequiredCols_spec (mkDataFrame data) (aligned_mkDataFrame data)
    set df2 := parseSheetDates df1 with hdf2
    obtain ⟨h2c, h2p⟩ := parseSheetDates_spec df1
    have h2A : Aligned df2 := h2p h1A
    set df3 := applyCanonicalFilters df2 payload.filters with hdf3
    obtain ⟨h3c, h3s⟩ := applyCanonicalFilters_sub df2 payload.filters
    have h3A : Aligned df3 := aligned_of_sub df2 df3 h3c h3s h2A
    set df4 := applySearch df3 payload.search with hdf4
    obtain ⟨h4c, h4s⟩ := applySearch_sub df3 payload.search
    have h4A : Aligned df4 := aligned_of_sub df3 df4 h4c h4s h3A
    set df5 := applyDateRange df4 payload.start_date payload.end_date with hdf5
    obtain ⟨h5c, h5s⟩ := applyDateRange_sub df4 payload.start_date payload.end_date
    have h5A : Aligned df5 := aligned_of_sub df4 df5 h5c h5s h4A
    set df6 := sortRowsByDate df5 with hdf6
    obtain ⟨h6c, h6s⟩ := sortRowsByDate_sub df5
    have h6A : Aligned df6 := aligned_of_sub df5 df6 h6c h6s h5A
    obtain ⟨h7c, h7p⟩ := formatDateCols_spec df6
    have h7A : Aligned (formatDateCols df6) := h7p h6A
    have hkeys : rowKeys r = (formatDateCols df6).cols := h7A r hr
    rw [hkeys, h7c, h6c, h5c, h4c, h3c, h2c]
    exact h1R c hc

/-- Single input row lacking five of the six required fields. -/
def dataOneRow : List Row := [[("Insight", Cell.str "x")]]

/-- Request payload with no filters, no search and no date bounds. -/
def emptyRequest : DataRequest :=
  { filters := none, search := none, start_date := none, end_date := none }

theorem filterPipeline_required_fields_witness :
    "Marca" ∈ rowKeys
      [("Insight", Cell.str "x"), ("Marca", Cell.null), ("Plataforma", Cell.null),
       ("Data do report/status", Cell.null), ("Mês", Cell.null), ("Tipo de insight", Cell.null)] :=
  filterPipeline_required_fields dataOneRow emptyRequest
    [("Insight", Cell.str "x"), ("Marca", Cell.null), ("Plataforma", Cell.null),
     ("Data do report/status", Cell.null), ("Mês", Cell.null), ("Tipo de insight", Cell.null)]
    "Marca" (by decide) (by decide)
